import Mathlib

/-!
Verification development for the openclaw tool-access policy engine.

The definitions below are a shallow embedding of the TypeScript sources:

- `src/agents/tool-policy-shared.ts` : name normalization and aliases
  (JS strings are embedded as Lean `String`, `trim` and `toLowerCase`
  as explicit ASCII-level list operations on `Char`);
- the tool catalog module (`CORE_TOOL_DEFINITIONS`, built-in profiles,
  named profile resolution with an extends chain);
- `src/agents/tool-policy-pipeline.ts` : the layered policy pipeline;
- `src/auto-reply/reply/commands-tools-reset.ts` : the reset command.

Helpers of the pipeline that live outside the given sources
(`filterToolsByPolicy`, `buildPluginToolGroups`,
`expandPolicyWithPluginGroups`, `stripPluginOnlyAllowlist`) are modelled
from the specification text, as marked on each definition.
-/

/-! ## Name normalizer (tool-policy-shared.ts) -/

/-- Embedding of JS `String.prototype.trim` on the character list:
whitespace is removed from both ends. -/
def trimChars (l : List Char) : List Char :=
  ((l.dropWhile Char.isWhitespace).reverse.dropWhile Char.isWhitespace).reverse

/-- Embedding of JS `trim` on strings. -/
def jsTrim (s : String) : String := String.mk (trimChars s.data)

/-- Embedding of JS `String.prototype.toLowerCase` (ASCII letters). -/
def jsToLowerCase (s : String) : String := String.mk (s.data.map Char.toLower)

/-- Composition trim-then-lowercase used by the normalizer, on lists. -/
def canonChars (l : List Char) : List Char := (trimChars l).map Char.toLower

/-- The alias map `TOOL_NAME_ALIASES` of tool-policy-shared.ts:
`bash` maps to `exec` and `apply-patch` maps to `apply_patch`. -/
def TOOL_NAME_ALIASES (s : String) : Option String :=
  if s = "bash" then some "exec"
  else if s = "apply-patch" then some "apply_patch"
  else none

/-- `normalizeToolName` of tool-policy-shared.ts:
trim, lowercase, then apply the alias map (defaulting to the
trimmed-lowercased name when no alias matches). -/
def normalizeToolName (name : String) : String :=
  (TOOL_NAME_ALIASES (jsToLowerCase (jsTrim name))).getD (jsToLowerCase (jsTrim name))

/-- `normalizeToolList` of tool-policy-shared.ts: normalize each entry and
drop entries that normalize to the empty string (`filter(Boolean)`). -/
def normalizeToolList (list : List String) : List String :=
  (list.map normalizeToolName).filter (fun s => !(s == ""))

/-! ## Tool catalog -/

inductive ToolProfileId where
  | minimal
  | coding
  | messaging
  | full
deriving DecidableEq

structure ToolProfilePolicy where
  allow : Option (List String) := none
  deny : Option (List String) := none
deriving DecidableEq

structure CoreToolDefinition where
  id : String
  label : String
  description : String
  sectionId : String
  profiles : List ToolProfileId
  includeInOpenClawGroup : Bool := false
deriving DecidableEq

/-- The static core tool catalog (`CORE_TOOL_DEFINITIONS`). -/
def CORE_TOOL_DEFINITIONS : List CoreToolDefinition := [
  { id := "read", label := "read", description := "Read file contents",
    sectionId := "fs", profiles := [.coding] },
  { id := "write", label := "write", description := "Create or overwrite files",
    sectionId := "fs", profiles := [.coding] },
  { id := "edit", label := "edit", description := "Make precise edits",
    sectionId := "fs", profiles := [.coding] },
  { id := "apply_patch", label := "apply_patch", description := "Patch files (OpenAI)",
    sectionId := "fs", profiles := [.coding] },
  { id := "exec", label := "exec", description := "Run shell commands",
    sectionId := "runtime", profiles := [.coding] },
  { id := "process", label := "process", description := "Manage background processes",
    sectionId := "runtime", profiles := [.coding] },
  { id := "web_search", label := "web_search", description := "Search the web",
    sectionId := "web", profiles := [], includeInOpenClawGroup := true },
  { id := "web_fetch", label := "web_fetch", description := "Fetch web content",
    sectionId := "web", profiles := [], includeInOpenClawGroup := true },
  { id := "memory_search", label := "memory_search", description := "Semantic search",
    sectionId := "memory", profiles := [.coding], includeInOpenClawGroup := true },
  { id := "memory_get", label := "memory_get", description := "Read memory files",
    sectionId := "memory", profiles := [.coding], includeInOpenClawGroup := true },
  { id := "sessions_list", label := "sessions_list", description := "List sessions",
    sectionId := "sessions", profiles := [.coding, .messaging], includeInOpenClawGroup := true },
  { id := "sessions_history", label := "sessions_history", description := "Session history",
    sectionId := "sessions", profiles := [.coding, .messaging], includeInOpenClawGroup := true },
  { id := "sessions_send", label := "sessions_send", description := "Send to session",
    sectionId := "sessions", profiles := [.coding, .messaging], includeInOpenClawGroup := true },
  { id := "sessions_spawn", label := "sessions_spawn", description := "Spawn sub-agent",
    sectionId := "sessions", profiles := [.coding], includeInOpenClawGroup := true },
  { id := "subagents", label := "subagents", description := "Manage sub-agents",
    sectionId := "sessions", profiles := [.coding], includeInOpenClawGroup := true },
  { id := "session_status", label := "session_status", description := "Session status",
    sectionId := "sessions", profiles := [.minimal, .coding, .messaging],
    includeInOpenClawGroup := true },
  { id := "browser", label := "browser", description := "Control web browser",
    sectionId := "ui", profiles := [], includeInOpenClawGroup := true },
  { id := "canvas", label := "canvas", description := "Control canvases",
    sectionId := "ui", profiles := [], includeInOpenClawGroup := true },
  { id := "message", label := "message", description := "Send messages",
    sectionId := "messaging", profiles := [.messaging], includeInOpenClawGroup := true },
  { id := "cron", label := "cron", description := "Schedule tasks",
    sectionId := "automation", profiles := [.coding], includeInOpenClawGroup := true },
  { id := "gateway", label := "gateway", description := "Gateway control",
    sectionId := "automation", profiles := [], includeInOpenClawGroup := true },
  { id := "nodes", label := "nodes", description := "Nodes + devices",
    sectionId := "nodes", profiles := [], includeInOpenClawGroup := true },
  { id := "agents_list", label := "agents_list", description := "List agents",
    sectionId := "agents", profiles := [], includeInOpenClawGroup := true },
  { id := "image", label := "image", description := "Image understanding",
    sectionId := "media", profiles := [.coding], includeInOpenClawGroup := true },
  { id := "tts", label := "tts", description := "Text-to-speech conversion",
    sectionId := "media", profiles := [], includeInOpenClawGroup := true }
]

/-- `listCoreToolIdsForProfile`: catalog ids whose `profiles` contain the
given built-in profile id, in catalog order. -/
def listCoreToolIdsForProfile (profile : ToolProfileId) : List String :=
  (CORE_TOOL_DEFINITIONS.filter (fun tool => profile ∈ tool.profiles)).map (fun tool => tool.id)

/-- The derived `CORE_TOOL_PROFILES` record: each built-in profile id maps
to its derived policy; `full` maps to the empty policy. -/
def CORE_TOOL_PROFILES : ToolProfileId → ToolProfilePolicy
  | .minimal => { allow := some (listCoreToolIdsForProfile .minimal) }
  | .coding => { allow := some (listCoreToolIdsForProfile .coding) }
  | .messaging => { allow := some (listCoreToolIdsForProfile .messaging) }
  | .full => {}

/-- String-keyed access to the `CORE_TOOL_PROFILES` record
(`CORE_TOOL_PROFILES[profile as ToolProfileId]` in the source): any key
other than the four built-in ids misses. -/
def toolProfileIdOfString (s : String) : Option ToolProfileId :=
  if s = "minimal" then some .minimal
  else if s = "coding" then some .coding
  else if s = "messaging" then some .messaging
  else if s = "full" then some .full
  else none

/-- Record access `CORE_TOOL_PROFILES[name]` as used by the named-profile
resolver: `full` yields the empty policy (a truthy object in JS). -/
def coreToolProfilesLookup (name : String) : Option ToolProfilePolicy :=
  (toolProfileIdOfString name).map CORE_TOOL_PROFILES

/-- `resolveCoreToolProfilePolicy` of the catalog module: resolve a
built-in profile name to a fresh copy of its derived policy; a policy with
neither allow nor deny (the `full` profile) resolves to `none`. -/
def resolveCoreToolProfilePolicy (profile : String) : Option ToolProfilePolicy :=
  match toolProfileIdOfString profile with
  | none => none
  | some pid =>
    let resolved := CORE_TOOL_PROFILES pid
    if resolved.allow = none ∧ resolved.deny = none then none
    else some { allow := resolved.allow, deny := resolved.deny }

/-- Section ids in order of first appearance in the catalog (the JS `Map`
insertion order of `buildCoreToolGroupMap`). -/
def coreSectionIdsInOrder : List String :=
  (CORE_TOOL_DEFINITIONS.map (fun tool => tool.sectionId)).foldl
    (fun acc s => if acc.contains s then acc else acc ++ [s]) []

/-- `CORE_TOOL_GROUPS` of the catalog module: the openclaw group plus one
group per populated section, keyed by group reference. -/
def CORE_TOOL_GROUPS : List (String × List String) :=
  ("group:openclaw",
    (CORE_TOOL_DEFINITIONS.filter (fun tool => tool.includeInOpenClawGroup)).map
      (fun tool => tool.id)) ::
  coreSectionIdsInOrder.map (fun sid =>
    ("group:" ++ sid,
     (CORE_TOOL_DEFINITIONS.filter (fun tool => tool.sectionId = sid)).map
       (fun tool => tool.id)))

/-! ## Named profile resolution -/

structure NamedProfileInput where
  extendsName : Option String := none
  allow : Option (List String) := none
  deny : Option (List String) := none
deriving DecidableEq

structure ResolvedProfileTrace where
  resolvedFrom : List String
  effectiveAllow : List String
  effectiveDeny : List String
deriving DecidableEq

structure ResolvedNamedProfile where
  policy : ToolProfilePolicy
  trace : ResolvedProfileTrace
deriving DecidableEq

def MAX_EXTENDS_DEPTH : Nat := 5

/-- The named-profile map `Record<string, NamedToolProfile>` embedded as an
association list; `lookup` is JS record access. -/
def lookupNamedProfile (namedProfiles : List (String × NamedProfileInput)) (name : String) :
    Option NamedProfileInput :=
  namedProfiles.lookup name

/-- JS `[...new Set(xs)]`, with the set of already-seen entries made
explicit: keep an entry iff it has not been seen yet. -/
def dedupFirstAux (seen : List String) : List String → List String
  | [] => []
  | x :: xs =>
    if seen.contains x then dedupFirstAux seen xs
    else x :: dedupFirstAux (seen ++ [x]) xs

/-- JS `[...new Set(xs)]`: deduplicate keeping the first occurrence order. -/
def dedupFirst (l : List String) : List String := dedupFirstAux [] l

/-- The `while (current)` walk of `resolveNamedToolProfilePolicy`:
accumulate allow/deny along the extends chain; stop on a missing
`extends`, on a visited parent, at chain length `MAX_EXTENDS_DEPTH`, after
merging a built-in parent, or on an unknown parent. Returns the final
`(chain, allAllow, allDeny)`. The structural `fuel` argument only makes
the recursion evident to Lean: the chain grows by one per iteration and
the walk is stopped by the source's own depth check, so with the initial
fuel `MAX_EXTENDS_DEPTH` and initial chain `[profileName]` the zero-fuel
fallback is unreachable (see `resolveExtendsLoop_fuel_irrelevant`). -/
def resolveExtendsLoop (namedProfiles : List (String × NamedProfileInput)) :
    Nat → NamedProfileInput → List String → List String → List String → List String →
    List String × List String × List String
  | 0, current, chain, _visited, allAllow, allDeny =>
    (chain, allAllow ++ current.allow.getD [], allDeny ++ current.deny.getD [])
  | fuel + 1, current, chain, visited, allAllow, allDeny =>
    let allAllow2 := allAllow ++ current.allow.getD []
    let allDeny2 := allDeny ++ current.deny.getD []
    match current.extendsName with
    | none => (chain, allAllow2, allDeny2)
    | some parentName =>
      if parentName ∈ visited then (chain, allAllow2, allDeny2)
      else if MAX_EXTENDS_DEPTH ≤ chain.length then (chain, allAllow2, allDeny2)
      else
        let visited2 := parentName :: visited
        let chain2 := chain ++ [parentName]
        match coreToolProfilesLookup parentName with
        | some builtIn =>
          (chain2, allAllow2 ++ builtIn.allow.getD [], allDeny2 ++ builtIn.deny.getD [])
        | none =>
          match lookupNamedProfile namedProfiles parentName with
          | some next =>
            resolveExtendsLoop namedProfiles fuel next chain2 visited2 allAllow2 allDeny2
          | none => (chain2, allAllow2, allDeny2)

/-- The merge step of `resolveNamedToolProfilePolicy` (lines 361-383 of
the catalog module), applied to the `(chain, allAllow, allDeny)` gathered
by the walk: deduplicate the accumulated allow entries and remove every
entry of the deny set; deduplicate the deny entries; return `none` when
both effective lists are empty. -/
def mergeResolvedProfile (g : List String × List String × List String) :
    Option ResolvedNamedProfile :=
  let chain := g.1
  let allAllow := g.2.1
  let allDeny := g.2.2
  let effectiveAllow :=
    if 0 < allAllow.length then (dedupFirst allAllow).filter (fun t => !(allDeny.contains t))
    else []
  let effectiveDeny := dedupFirst allDeny
  let policyAllow := if 0 < effectiveAllow.length then some effectiveAllow else none
  let policyDeny := if 0 < effectiveDeny.length then some effectiveDeny else none
  if policyAllow = none ∧ policyDeny = none then none
  else some { policy := { allow := policyAllow, deny := policyDeny },
              trace := { resolvedFrom := chain, effectiveAllow := effectiveAllow,
                         effectiveDeny := effectiveDeny } }

/-- `resolveNamedToolProfilePolicy` of the catalog module: look up the
profile, walk the extends chain, and merge the gathered lists. -/
def resolveNamedToolProfilePolicy (profileName : String)
    (namedProfiles : List (String × NamedProfileInput)) : Option ResolvedNamedProfile :=
  match lookupNamedProfile namedProfiles profileName with
  | none => none
  | some profile =>
    mergeResolvedProfile (resolveExtendsLoop namedProfiles MAX_EXTENDS_DEPTH profile
      [profileName] [profileName] [] [])

/-! ## Policy pipeline (tool-policy-pipeline.ts and its helpers) -/

/-- An agent tool as seen by the pipeline: its name together with the
result of `toolMeta` (the plugin id for plugin tools, nothing for core
tools). -/
structure AnyAgentTool where
  name : String
  pluginId : Option String := none
deriving DecidableEq

structure ToolPolicyLike where
  allow : Option (List String) := none
  deny : Option (List String) := none
deriving DecidableEq

structure ToolPolicyPipelineStep where
  policy : Option ToolPolicyLike
  label : String
  stripPluginOnlyAllowlist : Bool := false
deriving DecidableEq

structure NamedProfileContext where
  profileName : String
  headlineTools : List String := []
deriving DecidableEq

/-- The warnings the pipeline can emit through its `warn` sink, as tagged
values carrying the data interpolated into the message text. -/
inductive PipelineWarning where
  | unknownEntries (label : String) (entries : List String) (stripped : Bool)
  | zeroTools (profileName : String)
  | onlySessionStatus (profileName : String)
  | headlineLoss (profileName : String) (headline : List String) (remaining : List String)
deriving DecidableEq

/-- Rendering of a warning to the exact message text of the source. -/
def renderPipelineWarning : PipelineWarning → String
  | .unknownEntries label entries stripped =>
    let suffix := if stripped then
        "Ignoring allowlist so core tools remain available. Use tools.alsoAllow for additive plugin tool enablement."
      else "These entries won't match any tool unless the plugin is enabled."
    "tools: " ++ label ++ " allowlist contains unknown entries (" ++
      String.intercalate ", " entries ++ "). " ++ suffix
  | .zeroTools profileName =>
    "Named profile \"" ++ profileName ++ "\" resulted in zero tools after policy filtering."
  | .onlySessionStatus profileName =>
    "Named profile \"" ++ profileName ++ "\" resulted in only session_status after policy filtering."
  | .headlineLoss profileName headline remaining =>
    "Named profile \"" ++ profileName ++ "\" requested headline tools [" ++
      String.intercalate ", " headline ++ "], but none remain after filtering. Effective tools: " ++
      String.intercalate ", " remaining ++ "."

/-- Modelled from the spec: `plugin_groups(tools, tool_meta)` of the
missing plugin-group builder module maps `group:plugin:<pluginId>` to the
names of the tools contributed by that plugin (a tool contributes iff
`tool_meta` yields a plugin id); names are kept in normalized form. -/
def buildPluginToolGroups (tools : List AnyAgentTool) : List (String × List String) :=
  let pluginIds := (tools.filterMap (fun t => t.pluginId)).foldl
    (fun acc s => if acc.contains s then acc else acc ++ [s]) []
  pluginIds.map (fun pid =>
    ("group:plugin:" ++ pid,
     ((tools.filter (fun t => t.pluginId = some pid)).map
        (fun t => normalizeToolName t.name)).filter (fun s => !(s == ""))))

/-- Modelled from the spec: entry expansion of the missing policy-expander
module. Entries are normalized (empties dropped); an entry equal to a
known group key (core section group, openclaw group, or plugin group) is
replaced by its members; unknown entries are left in place; order is
preserved and duplicates are removed. -/
def expandToolList (pluginGroups : List (String × List String)) (list : List String) :
    List String :=
  dedupFirst ((normalizeToolList list).flatMap (fun v =>
    match CORE_TOOL_GROUPS.lookup v with
    | some g => g
    | none =>
      match pluginGroups.lookup v with
      | some g => g
      | none => [v]))

/-- Modelled from the spec: `expandPolicyWithPluginGroups` expands both
lists of a policy; a policy with neither allow nor deny expands to
nothing (the pipeline then leaves the working list unchanged). -/
def expandPolicyWithPluginGroups (policy : ToolPolicyLike)
    (pluginGroups : List (String × List String)) : Option ToolPolicyLike :=
  if policy.allow = none ∧ policy.deny = none then none
  else some { allow := policy.allow.map (expandToolList pluginGroups),
              deny := policy.deny.map (expandToolList pluginGroups) }

structure StripResult where
  policy : ToolPolicyLike
  unknownAllowlist : List String
  strippedAllowlist : Bool
deriving DecidableEq

/-- Modelled from the spec: `strip_plugin_only_allowlist` of the missing
allowlist safety filter. With no allowlist the policy is unchanged.
Otherwise an entry is recognized as core when it normalizes to a core
tool name or to a non-plugin group key; unknown entries are those that
are neither core, a core group, nor a plugin group; when no entry is
recognized as core and at least one entry references a plugin group, the
allowlist is dropped entirely. The deny list is never stripped. -/
def stripPluginOnlyAllowlist (policy : ToolPolicyLike)
    (pluginGroups : List (String × List String)) (coreToolNames : List String) : StripResult :=
  match policy.allow with
  | none => { policy := policy, unknownAllowlist := [], strippedAllowlist := false }
  | some allowList =>
    let isCore := fun (e : String) => coreToolNames.contains (normalizeToolName e)
    let isCoreGroup := fun (e : String) => (CORE_TOOL_GROUPS.lookup (normalizeToolName e)).isSome
    let isPluginGroup := fun (e : String) =>
      (pluginGroups.lookup (normalizeToolName e)).isSome
    let recognizedCoreEntry := allowList.any (fun e => isCore e || isCoreGroup e)
    let unknown := allowList.filter (fun e => !(isCore e) && !(isCoreGroup e) && !(isPluginGroup e))
    let hasPluginReference := allowList.any isPluginGroup
    if !recognizedCoreEntry && hasPluginReference then
      { policy := { allow := none, deny := policy.deny }, unknownAllowlist := unknown,
        strippedAllowlist := true }
    else { policy := policy, unknownAllowlist := unknown, strippedAllowlist := false }

/-- Modelled from the spec: `filter(tools, policy)` of the missing policy
filter module. A tool is retained iff its normalized name is in the allow
list (or the allow list is absent) and is not in the deny list; input
order is preserved. -/
def filterToolsByPolicy (tools : List AnyAgentTool) (policy : ToolPolicyLike) :
    List AnyAgentTool :=
  tools.filter (fun tool =>
    let n := normalizeToolName tool.name
    (match policy.allow with
     | none => true
     | some allowList => allowList.contains n) &&
    (match policy.deny with
     | none => true
     | some denyList => !(denyList.contains n)))

/-- One iteration of the step loop of `applyToolPolicyPipeline` (lines
88-110 of tool-policy-pipeline.ts): skip absent policies, optionally run
the safety filter (emitting the unknown-entries warning), expand with
plugin groups, and filter the working list when the expanded policy has
content. -/
def applyPipelineStep (pluginGroups : List (String × List String))
    (coreToolNames : List String) (acc : List AnyAgentTool × List PipelineWarning)
    (step : ToolPolicyPipelineStep) : List AnyAgentTool × List PipelineWarning :=
  match step.policy with
  | none => acc
  | some policy0 =>
    let resolved :=
      if step.stripPluginOnlyAllowlist then
        stripPluginOnlyAllowlist policy0 pluginGroups coreToolNames
      else { policy := policy0, unknownAllowlist := [], strippedAllowlist := false }
    let warnings :=
      if step.stripPluginOnlyAllowlist ∧ 0 < resolved.unknownAllowlist.length then
        acc.2 ++ [PipelineWarning.unknownEntries step.label resolved.unknownAllowlist
          resolved.strippedAllowlist]
      else acc.2
    match expandPolicyWithPluginGroups resolved.policy pluginGroups with
    | some expanded => (filterToolsByPolicy acc.1 expanded, warnings)
    | none => (acc.1, warnings)

/-- The normalized names of the core tools of this invocation (tools for
which `toolMeta` yields nothing), empties dropped. -/
def coreToolNamesOf (tools : List AnyAgentTool) : List String :=
  ((tools.filter (fun t => t.pluginId = none)).map
    (fun t => normalizeToolName t.name)).filter (fun s => !(s == ""))

/-- The step loop of `applyToolPolicyPipeline`, folded over the steps with
the working tool list and the warnings accumulated so far. -/
def runPipelineSteps (pluginGroups : List (String × List String))
    (coreToolNames : List String) (tools : List AnyAgentTool)
    (steps : List ToolPolicyPipelineStep) : List AnyAgentTool × List PipelineWarning :=
  steps.foldl (applyPipelineStep pluginGroups coreToolNames) (tools, [])

/-- The post-pipeline runtime warning chain of `applyToolPolicyPipeline`
(lines 112-132 of tool-policy-pipeline.ts), reached when a named-profile
context was provided: the zero-tools warning, otherwise the
only-session_status warning, otherwise the headline-loss warning,
otherwise nothing. -/
def postFilterWarnings (ctx : NamedProfileContext) (filtered : List AnyAgentTool) :
    List PipelineWarning :=
  let remaining := filtered.map (fun t => normalizeToolName t.name)
  let headline := ctx.headlineTools
  if filtered.length = 0 then [PipelineWarning.zeroTools ctx.profileName]
  else if filtered.length = 1 ∧ remaining.contains "session_status" then
    [PipelineWarning.onlySessionStatus ctx.profileName]
  else if 0 < headline.length ∧
      headline.all (fun t => !(remaining.contains (normalizeToolName t))) then
    [PipelineWarning.headlineLoss ctx.profileName headline (filtered.map (fun t => t.name))]
  else []

/-- `applyToolPolicyPipeline` of tool-policy-pipeline.ts: run the steps in
order, then, when a named-profile context was provided, emit at most one
post-filter warning (zero tools; only session_status; all headline tools
lost). Returns the filtered list together with the emitted warnings. -/
def applyToolPolicyPipeline (tools : List AnyAgentTool)
    (steps : List ToolPolicyPipelineStep) (namedProfileContext : Option NamedProfileContext) :
    List AnyAgentTool × List PipelineWarning :=
  let coreToolNames := coreToolNamesOf tools
  let pluginGroups := buildPluginToolGroups tools
  let r := runPipelineSteps pluginGroups coreToolNames tools steps
  let filtered := r.1
  let warnings := r.2
  match namedProfileContext with
  | none => (filtered, warnings)
  | some ctx => (filtered, warnings ++ postFilterWarnings ctx filtered)

/-- Post-filter warnings are the three degenerate-outcome warnings; the
step loop itself only ever emits unknown-entries warnings. -/
def isPostFilterWarning : PipelineWarning → Bool
  | .unknownEntries _ _ _ => false
  | .zeroTools _ => true
  | .onlySessionStatus _ => true
  | .headlineLoss _ _ _ => true

/-! ## Reset command handler (commands-tools-reset.ts) -/

/-- The per-session override record (persisted JSON shape): absent fields
are `none`. -/
structure SessionEntry where
  toolsProfileOverride : Option String := none
  toolsAllowOverride : Option (List String) := none
  toolsDenyOverride : Option (List String) := none
  toolsPromptListingOverride : Option String := none
deriving DecidableEq

/-- JS truthiness of an optional string (`entry?.field`): an absent field
and the empty string are both falsy. -/
def truthyOptStr : Option String → Bool
  | none => false
  | some s => !(s == "")

/-- JS truthiness of `entry?.field?.length` for a list-valued field: an
absent field and an empty list are both falsy. -/
def truthyOptLen : Option (List String) → Bool
  | none => false
  | some l => !(l.length == 0)

/-- `hadOverrides` of handleToolsResetCommand (lines 25-30):
`Boolean(profile || allow?.length || deny?.length || promptListing)`. -/
def hadOverridesOf (entry : Option SessionEntry) : Bool :=
  match entry with
  | none => false
  | some e =>
    truthyOptStr e.toolsProfileOverride || truthyOptLen e.toolsAllowOverride ||
      truthyOptLen e.toolsDenyOverride || truthyOptStr e.toolsPromptListingOverride

/-- The record after reset: all four override fields absent. -/
def clearedSessionEntry : SessionEntry := {}

structure ToolsResetOutcome where
  hadOverrides : Bool
  replyText : String
  entryAfter : SessionEntry
deriving DecidableEq

/-- The session-mutating core of `handleToolsResetCommand` (lines 24-58),
reached with an active session and an authorized sender: compute
`hadOverrides` from the current record, clear all four override fields,
and reply with the corresponding message. -/
def handleToolsResetCommand (entry : Option SessionEntry) : ToolsResetOutcome :=
  let had := hadOverridesOf entry
  { hadOverrides := had
    replyText :=
      if had then "Tool overrides cleared. Tools restored to config baseline."
      else "No tool overrides were active."
    entryAfter := clearedSessionEntry }

/-! ## Helper lemmas: characters and trimming -/

theorem toNat_ofNat_valid (n : Nat) (h : n < 55296) : (Char.ofNat n).toNat = n := by
  have hv : Char.isValidCharNat n := Or.inl h
  rw [Char.ofNat]
  rw [dif_pos hv]
  simp [Char.ofNatAux, Char.toNat, UInt32.toNat, UInt32.ofNat', BitVec.toNat_ofNatLt]

theorem char_eq_iff_toNat (a b : Char) : a = b ↔ a.toNat = b.toNat := by
  constructor
  · intro h; rw [h]
  · intro h
    apply Char.ext
    exact UInt32.toNat.inj h

theorem isWhitespace_toNat (c : Char) :
    c.isWhitespace = (decide (c.toNat = 32) || decide (c.toNat = 9) ||
      decide (c.toNat = 13) || decide (c.toNat = 10)) := by
  simp only [Char.isWhitespace, char_eq_iff_toNat]
  rfl

theorem toLower_toLower (c : Char) : c.toLower.toLower = c.toLower := by
  unfold Char.toLower
  by_cases h : c.toNat ≥ 65 ∧ c.toNat ≤ 90
  · rw [if_pos h]
    have ht : (Char.ofNat (c.toNat + 32)).toNat = c.toNat + 32 := toNat_ofNat_valid _ (by omega)
    rw [if_neg (by rw [ht]; omega)]
  · rw [if_neg h, if_neg h]

theorem isWhitespace_toLower (c : Char) : c.toLower.isWhitespace = c.isWhitespace := by
  unfold Char.toLower
  by_cases h : c.toNat ≥ 65 ∧ c.toNat ≤ 90
  · rw [if_pos h]
    have ht : (Char.ofNat (c.toNat + 32)).toNat = c.toNat + 32 := toNat_ofNat_valid _ (by omega)
    rw [isWhitespace_toNat, isWhitespace_toNat, ht]
    rw [decide_eq_false (by omega : ¬ (c.toNat + 32 = 32)),
        decide_eq_false (by omega : ¬ (c.toNat + 32 = 9)),
        decide_eq_false (by omega : ¬ (c.toNat + 32 = 13)),
        decide_eq_false (by omega : ¬ (c.toNat + 32 = 10)),
        decide_eq_false (by omega : ¬ (c.toNat = 32)),
        decide_eq_false (by omega : ¬ (c.toNat = 9)),
        decide_eq_false (by omega : ¬ (c.toNat = 13)),
        decide_eq_false (by omega : ¬ (c.toNat = 10))]
  · rw [if_neg h]

theorem dropWhile_head_false {α : Type} (p : α → Bool) (l : List α)
    (h : ∀ a ∈ l.head?, p a = false) : l.dropWhile p = l := by
  cases l with
  | nil => rfl
  | cons a t =>
    have ha : p a = false := h a (by simp)
    simp [List.dropWhile_cons, ha]

theorem head?_dropWhile_false {α : Type} (p : α → Bool) (l : List α) :
    ∀ a ∈ (l.dropWhile p).head?, p a = false := by
  have hm := List.head?_dropWhile_not p l
  intro a ha
  revert hm
  cases hh : (l.dropWhile p).head? with
  | none => simp [hh] at ha
  | some b =>
    intro hm
    have hab : a = b := by simp [hh] at ha; exact ha.symm
    subst hab
    exact hm

theorem trim_ends (l : List Char) :
    (∀ a ∈ (trimChars l).head?, a.isWhitespace = false) ∧
    (∀ a ∈ (trimChars l).getLast?, a.isWhitespace = false) := by
  constructor
  · intro a ha
    set m := l.dropWhile Char.isWhitespace with hm
    have hsplit : (m.reverse.dropWhile Char.isWhitespace).reverse ++
        (m.reverse.takeWhile Char.isWhitespace).reverse = m := by
      rw [← List.reverse_append, List.takeWhile_append_dropWhile, List.reverse_reverse]
    have hmem : a ∈ m.head? := by
      rw [← hsplit, List.head?_append]
      have hh : a ∈ (trimChars l).head? := ha
      simp only [trimChars, ← hm] at hh
      rw [Option.mem_def] at hh ⊢
      rw [hh]
      rfl
    exact head?_dropWhile_false _ _ a hmem
  · intro a ha
    simp only [trimChars, List.getLast?_reverse] at ha
    exact head?_dropWhile_false _ _ a ha

theorem trim_of_ends (l : List Char)
    (h1 : ∀ a ∈ l.head?, a.isWhitespace = false)
    (h2 : ∀ a ∈ l.getLast?, a.isWhitespace = false) : trimChars l = l := by
  unfold trimChars
  rw [dropWhile_head_false _ _ h1]
  rw [dropWhile_head_false _ _ (by rw [← List.getLast?_eq_head?_reverse] at *; exact h2)]
  exact List.reverse_reverse l

theorem canonChars_idem (l : List Char) : canonChars (canonChars l) = canonChars l := by
  unfold canonChars
  have hv1 : ∀ a ∈ ((trimChars l).map Char.toLower).head?, a.isWhitespace = false := by
    rw [List.head?_map]
    intro a ha
    simp only [Option.mem_def, Option.map_eq_some'] at ha
    obtain ⟨b, hb, rfl⟩ := ha
    rw [isWhitespace_toLower]
    exact (trim_ends l).1 b hb
  have hv2 : ∀ a ∈ ((trimChars l).map Char.toLower).getLast?, a.isWhitespace = false := by
    rw [List.getLast?_map]
    intro a ha
    simp only [Option.mem_def, Option.map_eq_some'] at ha
    obtain ⟨b, hb, rfl⟩ := ha
    rw [isWhitespace_toLower]
    exact (trim_ends l).2 b hb
  rw [trim_of_ends _ hv1 hv2, List.map_map]
  exact List.map_congr_left (fun a _ => toLower_toLower a)

theorem canonStr_eq (s : String) : jsToLowerCase (jsTrim s) = String.mk (canonChars s.data) := rfl

theorem canonStr_idem (s : String) :
    jsToLowerCase (jsTrim (jsToLowerCase (jsTrim s))) = jsToLowerCase (jsTrim s) := by
  rw [canonStr_eq, canonStr_eq]
  exact congrArg String.mk (canonChars_idem s.data)

/-! ## Claim C6 -/

/-- C6: the normalizer is idempotent (`normalize(normalize(x)) = normalize(x)`
for every string), maps `bash` to `exec` and `apply-patch` to `apply_patch`,
and trims whitespace and lowercases before applying the alias map. -/
theorem normalizer_algebra :
    (∀ x : String, normalizeToolName (normalizeToolName x) = normalizeToolName x) ∧
    normalizeToolName "bash" = "exec" ∧
    normalizeToolName "apply-patch" = "apply_patch" ∧
    (∀ x : String, normalizeToolName x =
      (TOOL_NAME_ALIASES (jsToLowerCase (jsTrim x))).getD (jsToLowerCase (jsTrim x))) := by
  refine ⟨?_, by decide, by decide, fun x => rfl⟩
  intro x
  by_cases h1 : jsToLowerCase (jsTrim x) = "bash"
  · have hx : normalizeToolName x = "exec" := by
      unfold normalizeToolName
      rw [h1]
      decide
    rw [hx]
    decide
  · by_cases h2 : jsToLowerCase (jsTrim x) = "apply-patch"
    · have hx : normalizeToolName x = "apply_patch" := by
        unfold normalizeToolName
        rw [h2]
        decide
      rw [hx]
      decide
    · have halias : TOOL_NAME_ALIASES (jsToLowerCase (jsTrim x)) = none := by
        unfold TOOL_NAME_ALIASES
        rw [if_neg h1, if_neg h2]
      have hx : normalizeToolName x = jsToLowerCase (jsTrim x) := by
        unfold normalizeToolName
        rw [halias]
        rfl
      rw [hx]
      unfold normalizeToolName
      rw [canonStr_idem, halias]
      rfl

/-! ## Claim C7 -/

/-- C7: each of the built-in profiles `minimal`, `coding`, `messaging`
resolves to a policy whose allow list is exactly the catalog tool ids
whose profiles contain that id and which has no deny list; `full` and any
name that is not a built-in id resolve to none (unrestricted). -/
theorem builtin_profile_resolution :
    (resolveCoreToolProfilePolicy "minimal" =
      some { allow := some ((CORE_TOOL_DEFINITIONS.filter
        (fun t => ToolProfileId.minimal ∈ t.profiles)).map (fun t => t.id)), deny := none }) ∧
    (resolveCoreToolProfilePolicy "coding" =
      some { allow := some ((CORE_TOOL_DEFINITIONS.filter
        (fun t => ToolProfileId.coding ∈ t.profiles)).map (fun t => t.id)), deny := none }) ∧
    (resolveCoreToolProfilePolicy "messaging" =
      some { allow := some ((CORE_TOOL_DEFINITIONS.filter
        (fun t => ToolProfileId.messaging ∈ t.profiles)).map (fun t => t.id)), deny := none }) ∧
    resolveCoreToolProfilePolicy "full" = none ∧
    (∀ name : String, name ≠ "minimal" → name ≠ "coding" → name ≠ "messaging" →
      resolveCoreToolProfilePolicy name = none) := by
  refine ⟨by decide, by decide, by decide, by decide, ?_⟩
  intro name h1 h2 h3
  unfold resolveCoreToolProfilePolicy toolProfileIdOfString
  rw [if_neg h1, if_neg h2, if_neg h3]
  by_cases h4 : name = "full"
  · rw [if_pos h4]
    decide
  · rw [if_neg h4]

/-- Witness for C7: an arbitrary non-built-in name resolves to none. -/
theorem builtin_profile_resolution_witness :
    resolveCoreToolProfilePolicy "marketing" = none :=
  builtin_profile_resolution.2.2.2.2 "marketing" (by decide) (by decide) (by decide)

/-! ## Helper lemmas: JS truthiness -/

theorem truthyOptStr_iff (o : Option String) :
    truthyOptStr o = true ↔ ∃ s, o = some s ∧ s ≠ "" := by
  cases o with
  | none => simp [truthyOptStr]
  | some s => simp [truthyOptStr]

theorem truthyOptLen_iff (o : Option (List String)) :
    truthyOptLen o = true ↔ ∃ l, o = some l ∧ l ≠ [] := by
  cases o with
  | none => simp [truthyOptLen]
  | some l => simp [truthyOptLen, List.length_eq_zero]

/-! ## Claim C5 -/

/-- C5 counterexample: a session record whose only present override field
is an empty allow list has a field that was previously set, yet the reset
command reports had_overrides = false and replies that no overrides were
active; the claim's "exactly when at least one of the four fields was
previously set" therefore fails on the code. -/
theorem reset_reporting_counterexample :
    (SessionEntry.toolsAllowOverride { toolsAllowOverride := some [] }).isSome = true ∧
    (handleToolsResetCommand (some { toolsAllowOverride := some [] })).hadOverrides = false ∧
    (handleToolsResetCommand (some { toolsAllowOverride := some [] })).replyText =
      "No tool overrides were active." := by decide

/-- C5 amended: the reset command reports had_overrides = true exactly when
at least one of the four override fields was previously set to a truthy
value (a non-empty profile or prompt-listing string, a non-empty allow or
deny list); a second reset immediately after a first finds the identical
all-cleared record and reports had_overrides = false, replying
"No tool overrides were active.". -/
theorem reset_reporting_amended (entry : Option SessionEntry) :
    ((handleToolsResetCommand entry).hadOverrides = true ↔
      ∃ e, entry = some e ∧
        ((∃ s, e.toolsProfileOverride = some s ∧ s ≠ "") ∨
         (∃ l, e.toolsAllowOverride = some l ∧ l ≠ []) ∨
         (∃ l, e.toolsDenyOverride = some l ∧ l ≠ []) ∨
         (∃ s, e.toolsPromptListingOverride = some s ∧ s ≠ ""))) ∧
    (handleToolsResetCommand (some (handleToolsResetCommand entry).entryAfter)).hadOverrides
        = false ∧
    (handleToolsResetCommand (some (handleToolsResetCommand entry).entryAfter)).replyText =
      "No tool overrides were active." ∧
    (handleToolsResetCommand (some (handleToolsResetCommand entry).entryAfter)).entryAfter =
      (handleToolsResetCommand entry).entryAfter := by
  refine ⟨?_, by rfl, by rfl, by rfl⟩
  cases entry with
  | none => simp [handleToolsResetCommand, hadOverridesOf]
  | some e =>
    simp only [handleToolsResetCommand, hadOverridesOf, Bool.or_eq_true,
      truthyOptStr_iff, truthyOptLen_iff, Option.some.injEq]
    constructor
    · intro h
      refine ⟨e, rfl, ?_⟩
      rcases h with ((h | h) | h) | h
      · exact Or.inl h
      · exact Or.inr (Or.inl h)
      · exact Or.inr (Or.inr (Or.inl h))
      · exact Or.inr (Or.inr (Or.inr h))
    · rintro ⟨e', he, h⟩
      cases he
      rcases h with h | h | h | h
      · exact Or.inl (Or.inl (Or.inl h))
      · exact Or.inl (Or.inl (Or.inr h))
      · exact Or.inl (Or.inr h)
      · exact Or.inr h

/-! ## Claim C10 -/

/-- C10: a session record whose only present override fields are empty
arrays makes the reset command report had_overrides = false and reply
"No tool overrides were active.", even though both fields were present
before the reset. -/
theorem empty_list_overrides_report_none :
    (handleToolsResetCommand
      (some { toolsAllowOverride := some [], toolsDenyOverride := some [] })).hadOverrides
        = false ∧
    (handleToolsResetCommand
      (some { toolsAllowOverride := some [], toolsDenyOverride := some [] })).replyText =
      "No tool overrides were active." ∧
    (SessionEntry.toolsAllowOverride
      { toolsAllowOverride := some [], toolsDenyOverride := some [] }).isSome = true ∧
    (SessionEntry.toolsDenyOverride
      { toolsAllowOverride := some [], toolsDenyOverride := some [] }).isSome = true := by
  decide

/-! ## Helper lemmas: deduplication and the extends walk -/

theorem mem_dedupFirstAux (seen l : List String) (x : String) :
    x ∈ dedupFirstAux seen l ↔ x ∈ l ∧ x ∉ seen := by
  induction l generalizing seen with
  | nil => simp [dedupFirstAux]
  | cons a t ih =>
    by_cases ha : seen.contains a
    · rw [dedupFirstAux, if_pos ha, ih]
      constructor
      · rintro ⟨hx, hs⟩
        exact ⟨List.mem_cons_of_mem _ hx, hs⟩
      · rintro ⟨hx, hs⟩
        rcases List.mem_cons.mp hx with rfl | hx
        · exact absurd (by simpa using ha) hs
        · exact ⟨hx, hs⟩
    · rw [dedupFirstAux, if_neg ha]
      simp only [List.mem_cons, ih, List.mem_append, List.mem_singleton]
      constructor
      · rintro (rfl | ⟨hx, hs⟩)
        · exact ⟨Or.inl rfl, by simpa using ha⟩
        · exact ⟨Or.inr hx, fun hxs => hs (Or.inl hxs)⟩
      · rintro ⟨rfl | hx, hs⟩
        · exact Or.inl rfl
        · by_cases hxa : x = a
          · exact Or.inl hxa
          · exact Or.inr ⟨hx, by simp [hs, hxa]⟩

theorem mem_dedupFirst (l : List String) (x : String) : x ∈ dedupFirst l ↔ x ∈ l := by
  rw [dedupFirst, mem_dedupFirstAux]
  simp

theorem resolveExtendsLoop_inv (namedProfiles : List (String × NamedProfileInput)) (fuel : Nat) :
    ∀ (current : NamedProfileInput) (chain visited allAllow allDeny : List String),
      chain.length ≤ MAX_EXTENDS_DEPTH → chain.Nodup → (∀ x ∈ chain, x ∈ visited) →
      (resolveExtendsLoop namedProfiles fuel current chain visited allAllow allDeny).1.length ≤
          MAX_EXTENDS_DEPTH ∧
        (resolveExtendsLoop namedProfiles fuel current chain visited allAllow allDeny).1.Nodup := by
  induction fuel with
  | zero =>
    intro current chain visited allAllow allDeny hlen hnd _
    exact ⟨hlen, hnd⟩
  | succ fuel ih =>
    intro current chain visited allAllow allDeny hlen hnd hsub
    rw [resolveExtendsLoop]
    cases hext : current.extendsName with
    | none => exact ⟨hlen, hnd⟩
    | some parentName =>
      by_cases hvis : parentName ∈ visited
      · simp only [if_pos hvis]
        exact ⟨hlen, hnd⟩
      · by_cases hdepth : MAX_EXTENDS_DEPTH ≤ chain.length
        · simp only [if_neg hvis, if_pos hdepth]
          exact ⟨hlen, hnd⟩
        · have hlen2 : (chain ++ [parentName]).length ≤ MAX_EXTENDS_DEPTH := by
            simp only [List.length_append, List.length_cons, List.length_nil]
            omega
          have hnd2 : (chain ++ [parentName]).Nodup := by
            refine List.Nodup.append hnd (List.nodup_singleton _) ?_
            intro x hx hx'
            simp only [List.mem_singleton] at hx'
            subst hx'
            exact hvis (hsub x hx)
          simp only [if_neg hvis, if_neg hdepth]
          cases hbi : coreToolProfilesLookup parentName with
          | some builtIn => exact ⟨hlen2, hnd2⟩
          | none =>
            cases hnext : lookupNamedProfile namedProfiles parentName with
            | some next =>
              apply ih
              · exact hlen2
              · exact hnd2
              · intro x hx
                rcases List.mem_append.mp hx with hx | hx
                · exact List.mem_cons_of_mem _ (hsub x hx)
                · simp only [List.mem_singleton] at hx
                  subst hx
                  exact List.mem_cons_self _ _
            | none => exact ⟨hlen2, hnd2⟩

theorem resolveExtendsLoop_depth_stop (namedProfiles : List (String × NamedProfileInput))
    (fuel : Nat) (current : NamedProfileInput) (chain visited allAllow allDeny : List String)
    (hdepth : MAX_EXTENDS_DEPTH ≤ chain.length) :
    resolveExtendsLoop namedProfiles fuel current chain visited allAllow allDeny =
      (chain, allAllow ++ current.allow.getD [], allDeny ++ current.deny.getD []) := by
  cases fuel with
  | zero => rfl
  | succ fuel =>
    rw [resolveExtendsLoop]
    cases hext : current.extendsName with
    | none => rfl
    | some parentName =>
      by_cases hvis : parentName ∈ visited
      · simp only [if_pos hvis]
      · simp only [if_neg hvis, if_pos hdepth]

theorem resolveExtendsLoop_fuel_irrelevant (namedProfiles : List (String × NamedProfileInput)) :
    ∀ (fuel1 fuel2 : Nat) (current : NamedProfileInput)
      (chain visited allAllow allDeny : List String),
      MAX_EXTENDS_DEPTH < fuel1 + chain.length → MAX_EXTENDS_DEPTH < fuel2 + chain.length →
      resolveExtendsLoop namedProfiles fuel1 current chain visited allAllow allDeny =
        resolveExtendsLoop namedProfiles fuel2 current chain visited allAllow allDeny := by
  intro fuel1
  induction fuel1 with
  | zero =>
    intro fuel2 current chain visited allAllow allDeny h1 h2
    rw [resolveExtendsLoop_depth_stop namedProfiles 0 current chain visited allAllow allDeny
      (by omega)]
    rw [resolveExtendsLoop_depth_stop namedProfiles fuel2 current chain visited allAllow allDeny
      (by omega)]
  | succ fuel1 ih =>
    intro fuel2 current chain visited allAllow allDeny h1 h2
    cases fuel2 with
    | zero =>
      rw [resolveExtendsLoop_depth_stop namedProfiles (fuel1 + 1) current chain visited allAllow
        allDeny (by omega)]
      rw [resolveExtendsLoop_depth_stop namedProfiles 0 current chain visited allAllow allDeny
        (by omega)]
    | succ fuel2 =>
      rw [resolveExtendsLoop, resolveExtendsLoop]
      cases hext : current.extendsName with
      | none => rfl
      | some parentName =>
        by_cases hvis : parentName ∈ visited
        · simp only [if_pos hvis]
        · by_cases hdepth : MAX_EXTENDS_DEPTH ≤ chain.length
          · simp only [if_neg hvis, if_pos hdepth]
          · simp only [if_neg hvis, if_neg hdepth]
            cases hbi : coreToolProfilesLookup parentName with
            | some builtIn => rfl
            | none =>
              cases hnext : lookupNamedProfile namedProfiles parentName with
              | some next =>
                apply ih
                · simp only [List.length_append, List.length_cons, List.length_nil]
                  omega
                · simp only [List.length_append, List.length_cons, List.length_nil]
                  omega
              | none => rfl

/-! ## Helper lemmas: the merge step -/

theorem resolveNamed_none (profileName : String)
    (namedProfiles : List (String × NamedProfileInput))
    (hlk : lookupNamedProfile namedProfiles profileName = none) :
    resolveNamedToolProfilePolicy profileName namedProfiles = none := by
  unfold resolveNamedToolProfilePolicy
  rw [hlk]

theorem resolveNamed_eq_merge (profileName : String)
    (namedProfiles : List (String × NamedProfileInput)) (profile : NamedProfileInput)
    (hlk : lookupNamedProfile namedProfiles profileName = some profile) :
    resolveNamedToolProfilePolicy profileName namedProfiles =
      mergeResolvedProfile (resolveExtendsLoop namedProfiles MAX_EXTENDS_DEPTH profile
        [profileName] [profileName] [] []) := by
  unfold resolveNamedToolProfilePolicy
  rw [hlk]

theorem mergeResolvedProfile_spec (g : List String × List String × List String) :
    (mergeResolvedProfile g = none ↔
      (if 0 < g.2.1.length then (dedupFirst g.2.1).filter (fun t => !(g.2.2.contains t)) else [])
          = [] ∧
        dedupFirst g.2.2 = []) ∧
    ∀ r, mergeResolvedProfile g = some r →
      r = { policy :=
              { allow :=
                  if 0 < (if 0 < g.2.1.length then
                      (dedupFirst g.2.1).filter (fun t => !(g.2.2.contains t)) else []).length
                    then some (if 0 < g.2.1.length then
                      (dedupFirst g.2.1).filter (fun t => !(g.2.2.contains t)) else [])
                    else none,
                deny :=
                  if 0 < (dedupFirst g.2.2).length then some (dedupFirst g.2.2) else none },
            trace :=
              { resolvedFrom := g.1,
                effectiveAllow :=
                  if 0 < g.2.1.length then
                    (dedupFirst g.2.1).filter (fun t => !(g.2.2.contains t)) else [],
                effectiveDeny := dedupFirst g.2.2 } } := by
  simp only [mergeResolvedProfile]
  set effA := (if 0 < g.2.1.length then
    (dedupFirst g.2.1).filter (fun t => !(g.2.2.contains t)) else []) with hA
  set effD := dedupFirst g.2.2 with hD
  by_cases h1 : 0 < effA.length <;> by_cases h2 : 0 < effD.length
  · have hA' : effA ≠ [] := by intro h; rw [h] at h1; simp at h1
    rw [if_pos h1, if_pos h2,
      if_neg (by simp : ¬ ((some effA = none) ∧ (some effD = none)))]
    refine ⟨iff_of_false (Option.some_ne_none _) (by rintro ⟨h, _⟩; exact hA' h), ?_⟩
    intro r hr
    rw [Option.some.injEq] at hr
    exact hr.symm
  · have hA' : effA ≠ [] := by intro h; rw [h] at h1; simp at h1
    rw [if_pos h1, if_neg h2,
      if_neg (by simp : ¬ ((some effA = none) ∧ ((none : Option (List String)) = none)))]
    refine ⟨iff_of_false (Option.some_ne_none _) (by rintro ⟨h, _⟩; exact hA' h), ?_⟩
    intro r hr
    rw [Option.some.injEq] at hr
    exact hr.symm
  · have hD' : effD ≠ [] := by intro h; rw [h] at h2; simp at h2
    rw [if_neg h1, if_pos h2,
      if_neg (by simp : ¬ (((none : Option (List String)) = none) ∧ (some effD = none)))]
    refine ⟨iff_of_false (Option.some_ne_none _) (by rintro ⟨_, h⟩; exact hD' h), ?_⟩
    intro r hr
    rw [Option.some.injEq] at hr
    exact hr.symm
  · have hA0 : effA = [] := by
      cases he : effA with
      | nil => rfl
      | cons a t => rw [he] at h1; simp at h1
    have hD0 : effD = [] := by
      cases he : effD with
      | nil => rfl
      | cons a t => rw [he] at h2; simp at h2
    rw [if_neg h1, if_neg h2, if_pos ⟨rfl, rfl⟩]
    refine ⟨iff_of_true rfl ⟨hA0, hD0⟩, ?_⟩
    intro r hr
    simp at hr

theorem effA_cond_eq (aA aD : List String) :
    (if 0 < aA.length then (dedupFirst aA).filter (fun t => !(aD.contains t)) else []) =
      (dedupFirst aA).filter (fun t => !(aD.contains t)) := by
  by_cases h : 0 < aA.length
  · rw [if_pos h]
  · rw [if_neg h]
    cases aA with
    | nil => rfl
    | cons a t => simp at h

theorem optNonempty_eq (l : List String) :
    (if 0 < l.length then some l else none) = (if l = [] then none else some l) := by
  cases l <;> simp

/-! ## Claim C3 -/

/-- C3: named profile resolution terminates for every input and is
bounded: whenever it returns a result, the visited chain has length at
most MAX_EXTENDS_DEPTH and contains no repeated name (a cycle stops the
walk at the first repeated name without raising an error), and an extends
pointing to a built-in profile ends the walk immediately after merging
that built-in's policy. -/
theorem named_profile_resolution_bounded
    (profileName : String) (namedProfiles : List (String × NamedProfileInput))
    (r : ResolvedNamedProfile)
    (hr : resolveNamedToolProfilePolicy profileName namedProfiles = some r)
    (fuel : Nat) (current : NamedProfileInput) (chain visited allAllow allDeny : List String)
    (parent : String) (builtIn : ToolProfilePolicy)
    (hext : current.extendsName = some parent) (hvis : parent ∉ visited)
    (hdepth : chain.length < MAX_EXTENDS_DEPTH)
    (hb : coreToolProfilesLookup parent = some builtIn) :
    r.trace.resolvedFrom.length ≤ MAX_EXTENDS_DEPTH ∧ r.trace.resolvedFrom.Nodup ∧
    resolveExtendsLoop namedProfiles (fuel + 1) current chain visited allAllow allDeny =
      (chain ++ [parent],
       (allAllow ++ current.allow.getD []) ++ builtIn.allow.getD [],
       (allDeny ++ current.deny.getD []) ++ builtIn.deny.getD []) := by
  have hstep :
      resolveExtendsLoop namedProfiles (fuel + 1) current chain visited allAllow allDeny =
        (chain ++ [parent],
         (allAllow ++ current.allow.getD []) ++ builtIn.allow.getD [],
         (allDeny ++ current.deny.getD []) ++ builtIn.deny.getD []) := by
    rw [resolveExtendsLoop]
    simp only [hext, if_neg hvis, if_neg (Nat.not_le.mpr hdepth), hb]
  refine ⟨?_, ?_, hstep⟩ <;>
  · cases hlk : lookupNamedProfile namedProfiles profileName with
    | none =>
      rw [resolveNamed_none profileName namedProfiles hlk] at hr
      simp at hr
    | some profile =>
      rw [resolveNamed_eq_merge profileName namedProfiles profile hlk] at hr
      have hrec := (mergeResolvedProfile_spec _).2 r hr
      rw [hrec]
      have hinv := resolveExtendsLoop_inv namedProfiles MAX_EXTENDS_DEPTH profile
        [profileName] [profileName] [] [] (by simp [MAX_EXTENDS_DEPTH]) (by simp) (by simp)
      first
      | exact hinv.1
      | exact hinv.2

/-- Witness for C3: a two-profile cycle resolves with a bounded,
repetition-free chain, and a profile extending the built-in coding
profile merges that policy and stops. -/
theorem named_profile_resolution_bounded_witness :
    (["a", "b"] : List String).length ≤ MAX_EXTENDS_DEPTH ∧
    (["a", "b"] : List String).Nodup ∧
    resolveExtendsLoop
        [("a", { extendsName := some "b", allow := some ["x"] }),
         ("b", { extendsName := some "a" })] (0 + 1)
        { extendsName := some "coding", allow := some ["read"] } ["p"] ["p"] [] [] =
      (["p"] ++ ["coding"],
       (([] ++ (some ["read"] : Option (List String)).getD []) ++
         (CORE_TOOL_PROFILES ToolProfileId.coding).allow.getD []),
       (([] ++ (none : Option (List String)).getD []) ++
         (CORE_TOOL_PROFILES ToolProfileId.coding).deny.getD [])) :=
  named_profile_resolution_bounded "a"
    [("a", { extendsName := some "b", allow := some ["x"] }), ("b", { extendsName := some "a" })]
    { policy := { allow := some ["x"], deny := none },
      trace := { resolvedFrom := ["a", "b"], effectiveAllow := ["x"], effectiveDeny := [] } }
    (by decide) 0 { extendsName := some "coding", allow := some ["read"] } ["p"] ["p"] [] []
    "coding" (CORE_TOOL_PROFILES ToolProfileId.coding) (by decide) (by decide) (by decide)
    (by decide)

theorem dedupFirst_ne_nil (l : List String) (h : l ≠ []) : dedupFirst l ≠ [] := by
  cases l with
  | nil => exact absurd rfl h
  | cons a t => simp [dedupFirst, dedupFirstAux]

/-- Characterization of named profile resolution after a successful
lookup: the result is determined by the gathered allow/deny lists. -/
theorem resolveNamed_char (profileName : String)
    (namedProfiles : List (String × NamedProfileInput)) (profile : NamedProfileInput)
    (hlk : lookupNamedProfile namedProfiles profileName = some profile) :
    resolveNamedToolProfilePolicy profileName namedProfiles =
      (let g := resolveExtendsLoop namedProfiles MAX_EXTENDS_DEPTH profile
        [profileName] [profileName] [] []
      let effA := (dedupFirst g.2.1).filter (fun t => !(g.2.2.contains t))
      let effD := dedupFirst g.2.2
      if effA = [] ∧ effD = [] then none
      else some { policy := { allow := if effA = [] then none else some effA,
                              deny := if effD = [] then none else some effD },
                  trace := { resolvedFrom := g.1, effectiveAllow := effA,
                             effectiveDeny := effD } }) := by
  rw [resolveNamed_eq_merge profileName namedProfiles profile hlk]
  set g := resolveExtendsLoop namedProfiles MAX_EXTENDS_DEPTH profile
    [profileName] [profileName] [] [] with hg
  have hspec := mergeResolvedProfile_spec g
  cases hm : mergeResolvedProfile g with
  | none =>
    have hc := hspec.1.mp hm
    rw [effA_cond_eq] at hc
    rw [if_pos hc]
  | some r =>
    have hne : ¬ ((dedupFirst g.2.1).filter (fun t => !(g.2.2.contains t)) = [] ∧
        dedupFirst g.2.2 = []) := by
      intro hc
      have : mergeResolvedProfile g = none := by
        rw [hspec.1, effA_cond_eq]
        exact hc
      rw [this] at hm
      simp at hm
    rw [if_neg hne]
    have hrec := hspec.2 r hm
    rw [hrec]
    simp only [effA_cond_eq, optNonempty_eq]

/-! ## Claim C4 -/

/-- C4: for every profile name present in the named-profile map, the
resolver returns effective_allow equal to the deduplicated concatenation
of the allow lists gathered along the chain with every entry of the deny
set removed, effective_deny equal to the deduplicated concatenation of
the gathered deny lists, and none exactly when both effective lists are
empty. -/
theorem named_profile_merge_rule (profileName : String)
    (namedProfiles : List (String × NamedProfileInput)) (profile : NamedProfileInput)
    (hlk : lookupNamedProfile namedProfiles profileName = some profile) :
    resolveNamedToolProfilePolicy profileName namedProfiles =
      (let g := resolveExtendsLoop namedProfiles MAX_EXTENDS_DEPTH profile
        [profileName] [profileName] [] []
      let effA := (dedupFirst g.2.1).filter (fun t => !(g.2.2.contains t))
      let effD := dedupFirst g.2.2
      if effA = [] ∧ effD = [] then none
      else some { policy := { allow := if effA = [] then none else some effA,
                              deny := if effD = [] then none else some effD },
                  trace := { resolvedFrom := g.1, effectiveAllow := effA,
                             effectiveDeny := effD } }) :=
  resolveNamed_char profileName namedProfiles profile hlk

/-- Witness for C4: a profile whose allow list is filtered by its own
deny list, evaluated concretely. -/
theorem named_profile_merge_rule_witness :
    resolveNamedToolProfilePolicy "p" [("p", { allow := some ["a", "b"], deny := some ["b"] })] =
      some { policy := { allow := some ["a"], deny := some ["b"] },
             trace := { resolvedFrom := ["p"], effectiveAllow := ["a"],
                        effectiveDeny := ["b"] } } :=
  named_profile_merge_rule "p" [("p", { allow := some ["a", "b"], deny := some ["b"] })]
    { allow := some ["a", "b"], deny := some ["b"] } (by decide)

/-! ## Claim C9 -/

/-- C9: when every allow entry gathered along the chain also appears in
the gathered deny set and the deny set is non-empty, the resolver returns
a policy whose allow field is absent and whose deny list is the
deduplicated deny set, so downstream filtering treats the profile as
unrestricted-except-denied rather than as an empty allowlist. -/
theorem empty_allow_after_deny_unrestricted (profileName : String)
    (namedProfiles : List (String × NamedProfileInput)) (profile : NamedProfileInput)
    (hlk : lookupNamedProfile namedProfiles profileName = some profile)
    (hsub : ∀ a ∈ (resolveExtendsLoop namedProfiles MAX_EXTENDS_DEPTH profile
      [profileName] [profileName] [] []).2.1,
      a ∈ (resolveExtendsLoop namedProfiles MAX_EXTENDS_DEPTH profile
        [profileName] [profileName] [] []).2.2)
    (hne : (resolveExtendsLoop namedProfiles MAX_EXTENDS_DEPTH profile
      [profileName] [profileName] [] []).2.2 ≠ []) :
    resolveNamedToolProfilePolicy profileName namedProfiles =
      some { policy :=
               { allow := none,
                 deny := some (dedupFirst (resolveExtendsLoop namedProfiles MAX_EXTENDS_DEPTH
                   profile [profileName] [profileName] [] []).2.2) },
             trace :=
               { resolvedFrom := (resolveExtendsLoop namedProfiles MAX_EXTENDS_DEPTH profile
                   [profileName] [profileName] [] []).1,
                 effectiveAllow := [],
                 effectiveDeny := dedupFirst (resolveExtendsLoop namedProfiles MAX_EXTENDS_DEPTH
                   profile [profileName] [profileName] [] []).2.2 } } := by
  set g := resolveExtendsLoop namedProfiles MAX_EXTENDS_DEPTH profile
    [profileName] [profileName] [] [] with hg
  have heffA : (dedupFirst g.2.1).filter (fun t => !(g.2.2.contains t)) = [] := by
    rw [List.filter_eq_nil_iff]
    intro a ha
    have hmem : a ∈ g.2.1 := (mem_dedupFirst _ _).mp ha
    have hc : g.2.2.contains a = true := List.elem_eq_true_of_mem (hsub a hmem)
    simp [hc]
    exact hsub a hmem
  have heffD : dedupFirst g.2.2 ≠ [] := dedupFirst_ne_nil _ hne
  rw [resolveNamed_char profileName namedProfiles profile hlk]
  simp only []
  rw [heffA]
  rw [if_neg (by rintro ⟨_, hD⟩; exact heffD hD)]
  rw [if_pos rfl, if_neg heffD]

/-- Witness for C9: a profile whose allow entries are all denied resolves
to a deny-only policy. -/
theorem empty_allow_after_deny_unrestricted_witness :
    resolveNamedToolProfilePolicy "p" [("p", { allow := some ["x"], deny := some ["x", "y"] })] =
      some { policy := { allow := none, deny := some ["x", "y"] },
             trace := { resolvedFrom := ["p"], effectiveAllow := [],
                        effectiveDeny := ["x", "y"] } } :=
  empty_allow_after_deny_unrestricted "p"
    [("p", { allow := some ["x"], deny := some ["x", "y"] })]
    { allow := some ["x"], deny := some ["x", "y"] } (by decide) (by decide) (by decide)

/-! ## Helper lemmas: the pipeline -/

theorem applyPipelineStep_fst_sublist (pluginGroups : List (String × List String))
    (coreToolNames : List String) (acc : List AnyAgentTool × List PipelineWarning)
    (step : ToolPolicyPipelineStep) :
    (applyPipelineStep pluginGroups coreToolNames acc step).1.Sublist acc.1 := by
  unfold applyPipelineStep
  cases hp : step.policy with
  | none => exact List.Sublist.refl _
  | some policy0 =>
    simp only []
    cases he : expandPolicyWithPluginGroups
        (if step.stripPluginOnlyAllowlist then
          stripPluginOnlyAllowlist policy0 pluginGroups coreToolNames
        else { policy := policy0, unknownAllowlist := [], strippedAllowlist := false }).policy
        pluginGroups with
    | none => exact List.Sublist.refl _
    | some expanded => exact List.filter_sublist _

theorem runPipelineSteps_fst_sublist (pluginGroups : List (String × List String))
    (coreToolNames : List String) (steps : List ToolPolicyPipelineStep) :
    ∀ acc : List AnyAgentTool × List PipelineWarning,
      ((steps.foldl (applyPipelineStep pluginGroups coreToolNames) acc).1).Sublist acc.1 := by
  induction steps with
  | nil => intro acc; exact List.Sublist.refl _
  | cons s rest ih =>
    intro acc
    exact (ih (applyPipelineStep pluginGroups coreToolNames acc s)).trans
      (applyPipelineStep_fst_sublist pluginGroups coreToolNames acc s)

theorem applyToolPolicyPipeline_fst (tools : List AnyAgentTool)
    (steps : List ToolPolicyPipelineStep) (ctx : Option NamedProfileContext) :
    (applyToolPolicyPipeline tools steps ctx).1 =
      (runPipelineSteps (buildPluginToolGroups tools) (coreToolNamesOf tools) tools steps).1 := by
  unfold applyToolPolicyPipeline
  cases ctx with
  | none => rfl
  | some c => rfl

theorem stripPluginOnlyAllowlist_deny (policy : ToolPolicyLike)
    (pluginGroups : List (String × List String)) (coreToolNames : List String) :
    (stripPluginOnlyAllowlist policy pluginGroups coreToolNames).policy.deny = policy.deny := by
  unfold stripPluginOnlyAllowlist
  cases hp : policy.allow with
  | none => rfl
  | some allowList =>
    simp only []
    split
    · rfl
    · rfl

theorem mem_expandToolList (pluginGroups : List (String × List String)) (list : List String)
    (e t : String) (he : e ∈ list) (hn : normalizeToolName e = t) (ht : ¬ (t = ""))
    (hcore : CORE_TOOL_GROUPS.lookup t = none) (hpg : pluginGroups.lookup t = none) :
    t ∈ expandToolList pluginGroups list := by
  unfold expandToolList
  rw [mem_dedupFirst]
  have hmem : t ∈ normalizeToolList list := by
    unfold normalizeToolList
    rw [List.mem_filter]
    constructor
    · exact hn ▸ List.mem_map_of_mem normalizeToolName he
    · simp [ht]
  refine List.mem_flatMap.mpr ⟨t, hmem, ?_⟩
  rw [hcore, hpg]
  exact List.mem_singleton.mpr rfl

theorem filterToolsByPolicy_kills (tools : List AnyAgentTool) (policy : ToolPolicyLike)
    (d : List String) (t : String) (hd : policy.deny = some d) (htd : t ∈ d) :
    ∀ tool ∈ filterToolsByPolicy tools policy, ¬ (normalizeToolName tool.name = t) := by
  intro tool htool heq
  unfold filterToolsByPolicy at htool
  rw [List.mem_filter] at htool
  obtain ⟨-, hkeep⟩ := htool
  rw [hd] at hkeep
  simp only [Bool.and_eq_true, Bool.not_eq_true] at hkeep
  have : d.contains (normalizeToolName tool.name) = true :=
    List.elem_eq_true_of_mem (heq ▸ htd)
  rw [this] at hkeep
  exact absurd hkeep.2 (by simp)

theorem applyPipelineStep_kills (pluginGroups : List (String × List String))
    (coreToolNames : List String) (acc : List AnyAgentTool × List PipelineWarning)
    (step : ToolPolicyPipelineStep) (policy : ToolPolicyLike) (d : List String) (e t : String)
    (hp : step.policy = some policy) (hd : policy.deny = some d) (he : e ∈ d)
    (hn : normalizeToolName e = t) (ht : ¬ (t = ""))
    (hcore : CORE_TOOL_GROUPS.lookup t = none) (hpg : pluginGroups.lookup t = none) :
    ∀ tool ∈ (applyPipelineStep pluginGroups coreToolNames acc step).1,
      ¬ (normalizeToolName tool.name = t) := by
  unfold applyPipelineStep
  rw [hp]
  simp only []
  set resolved :=
    (if step.stripPluginOnlyAllowlist then
      stripPluginOnlyAllowlist policy pluginGroups coreToolNames
    else { policy := policy, unknownAllowlist := [], strippedAllowlist := false }) with hres
  have hqdeny : resolved.policy.deny = some d := by
    rw [hres]
    split
    · rw [stripPluginOnlyAllowlist_deny]
      exact hd
    · exact hd
  have hexp : expandPolicyWithPluginGroups resolved.policy pluginGroups =
      some { allow := resolved.policy.allow.map (expandToolList pluginGroups),
             deny := some (expandToolList pluginGroups d) } := by
    unfold expandPolicyWithPluginGroups
    rw [if_neg (by rw [hqdeny]; rintro ⟨-, h⟩; exact Option.some_ne_none _ h)]
    rw [hqdeny]
    rfl
  rw [hexp]
  exact filterToolsByPolicy_kills acc.1 _ (expandToolList pluginGroups d) t rfl
    (mem_expandToolList pluginGroups d e t he hn ht hcore hpg)

theorem runPipelineSteps_kills (pluginGroups : List (String × List String))
    (coreToolNames : List String) (steps : List ToolPolicyPipelineStep)
    (step : ToolPolicyPipelineStep) (policy : ToolPolicyLike) (d : List String) (e t : String)
    (hstep : step ∈ steps) (hp : step.policy = some policy) (hd : policy.deny = some d)
    (he : e ∈ d) (hn : normalizeToolName e = t) (ht : ¬ (t = ""))
    (hcore : CORE_TOOL_GROUPS.lookup t = none) (hpg : pluginGroups.lookup t = none) :
    ∀ acc : List AnyAgentTool × List PipelineWarning,
      ∀ tool ∈ (steps.foldl (applyPipelineStep pluginGroups coreToolNames) acc).1,
        ¬ (normalizeToolName tool.name = t) := by
  induction steps with
  | nil => exact absurd hstep (List.not_mem_nil step)
  | cons s rest ih =>
    intro acc tool htool heq
    rcases List.mem_cons.mp hstep with rfl | hrest
    · have hkilled := applyPipelineStep_kills pluginGroups coreToolNames acc step policy d e t
        hp hd he hn ht hcore hpg
      have hsub := runPipelineSteps_fst_sublist pluginGroups coreToolNames rest
        (applyPipelineStep pluginGroups coreToolNames acc step)
      exact hkilled tool (hsub.subset htool) heq
    · exact ih hrest (applyPipelineStep pluginGroups coreToolNames acc s) tool htool heq

/-! ## Claim C1 -/

/-- C1: deny dominance. If any step's policy has a deny entry that
normalizes to the (non-empty, non-group-reference) name t, then no tool
whose name normalizes to t appears in the pipeline output, regardless of
that step's or any later step's allow lists. -/
theorem deny_dominance (tools : List AnyAgentTool) (steps : List ToolPolicyPipelineStep)
    (ctx : Option NamedProfileContext) (step : ToolPolicyPipelineStep)
    (policy : ToolPolicyLike) (d : List String) (e t : String)
    (hstep : step ∈ steps) (hp : step.policy = some policy) (hd : policy.deny = some d)
    (he : e ∈ d) (hn : normalizeToolName e = t) (ht : ¬ (t = ""))
    (hcore : CORE_TOOL_GROUPS.lookup t = none)
    (hpg : (buildPluginToolGroups tools).lookup t = none) :
    t ∉ (applyToolPolicyPipeline tools steps ctx).1.map (fun tool => normalizeToolName tool.name)
    := by
  rw [applyToolPolicyPipeline_fst]
  intro hmem
  obtain ⟨tool, htool, heq⟩ := List.mem_map.mp hmem
  exact runPipelineSteps_kills (buildPluginToolGroups tools) (coreToolNamesOf tools) steps step
    policy d e t hstep hp hd he hn ht hcore hpg (tools, []) tool htool heq

/-- Witness for C1: a step denies exec while allowing it, a later step
allows exec again; exec does not survive. -/
theorem deny_dominance_witness :
    "exec" ∉ (applyToolPolicyPipeline [{ name := "read" }, { name := "exec" }]
      [{ policy := some { allow := some ["read", "exec"], deny := some ["exec"] },
         label := "sandbox", stripPluginOnlyAllowlist := true },
       { policy := some { allow := some ["read", "exec"] }, label := "session override" }]
      none).1.map (fun tool => normalizeToolName tool.name) :=
  deny_dominance [{ name := "read" }, { name := "exec" }]
    [{ policy := some { allow := some ["read", "exec"], deny := some ["exec"] },
       label := "sandbox", stripPluginOnlyAllowlist := true },
     { policy := some { allow := some ["read", "exec"] }, label := "session override" }]
    none
    { policy := some { allow := some ["read", "exec"], deny := some ["exec"] },
      label := "sandbox", stripPluginOnlyAllowlist := true }
    { allow := some ["read", "exec"], deny := some ["exec"] } ["exec"] "exec" "exec"
    (by decide) (by decide) (by decide) (by decide) (by decide) (by decide) (by decide)
    (by decide)

/-! ## Claim C2 -/

/-- C2: monotone narrowing. The pipeline output is a sublist of the input
tool list (hence its length is at most the input length and every output
tool appears in the input), and a single step never introduces a tool
absent from the working set it receives. -/
theorem monotone_narrowing (tools : List AnyAgentTool) (steps : List ToolPolicyPipelineStep)
    (ctx : Option NamedProfileContext) :
    (applyToolPolicyPipeline tools steps ctx).1.Sublist tools ∧
    (applyToolPolicyPipeline tools steps ctx).1.length ≤ tools.length ∧
    (∀ tool ∈ (applyToolPolicyPipeline tools steps ctx).1, tool ∈ tools) ∧
    (∀ (pluginGroups : List (String × List String)) (coreToolNames : List String)
       (working : List AnyAgentTool) (warnings : List PipelineWarning)
       (step : ToolPolicyPipelineStep),
       (applyPipelineStep pluginGroups coreToolNames (working, warnings) step).1.Sublist
         working) := by
  have hsub : (applyToolPolicyPipeline tools steps ctx).1.Sublist tools := by
    rw [applyToolPolicyPipeline_fst]
    exact runPipelineSteps_fst_sublist (buildPluginToolGroups tools) (coreToolNamesOf tools)
      steps (tools, [])
  exact ⟨hsub, hsub.length_le, fun tool h => hsub.subset h,
    fun pluginGroups coreToolNames working warnings step =>
      applyPipelineStep_fst_sublist pluginGroups coreToolNames (working, warnings) step⟩

theorem filter_post_append_unknown (ws : List PipelineWarning) (l : String)
    (es : List String) (b : Bool) (C : Prop) [Decidable C] :
    (if C then ws ++ [PipelineWarning.unknownEntries l es b] else ws).filter
        isPostFilterWarning =
      ws.filter isPostFilterWarning := by
  split
  · rw [List.filter_append]
    simp [isPostFilterWarning]
  · rfl

theorem applyPipelineStep_snd_filter (pluginGroups : List (String × List String))
    (coreToolNames : List String) (acc : List AnyAgentTool × List PipelineWarning)
    (step : ToolPolicyPipelineStep) :
    (applyPipelineStep pluginGroups coreToolNames acc step).2.filter isPostFilterWarning =
      acc.2.filter isPostFilterWarning := by
  unfold applyPipelineStep
  cases hp : step.policy with
  | none => rfl
  | some policy0 =>
    simp only []
    cases he : expandPolicyWithPluginGroups
        (if step.stripPluginOnlyAllowlist then
          stripPluginOnlyAllowlist policy0 pluginGroups coreToolNames
        else { policy := policy0, unknownAllowlist := [], strippedAllowlist := false }).policy
        pluginGroups with
    | none =>
      simp only [he]
      exact filter_post_append_unknown acc.2 step.label _ _ _
    | some expanded =>
      simp only [he]
      exact filter_post_append_unknown acc.2 step.label _ _ _

theorem runPipelineSteps_post_filter (pluginGroups : List (String × List String))
    (coreToolNames : List String) (tools : List AnyAgentTool)
    (steps : List ToolPolicyPipelineStep) :
    (runPipelineSteps pluginGroups coreToolNames tools steps).2.filter isPostFilterWarning
      = [] := by
  unfold runPipelineSteps
  suffices h : ∀ acc : List AnyAgentTool × List PipelineWarning,
      ((steps.foldl (applyPipelineStep pluginGroups coreToolNames) acc).2).filter
          isPostFilterWarning =
        acc.2.filter isPostFilterWarning by
    rw [h (tools, [])]
    rfl
  induction steps with
  | nil => intro acc; rfl
  | cons s rest ih =>
    intro acc
    rw [List.foldl_cons, ih (applyPipelineStep pluginGroups coreToolNames acc s),
      applyPipelineStep_snd_filter]

theorem postFilterWarnings_all_post (c : NamedProfileContext) (filtered : List AnyAgentTool) :
    (postFilterWarnings c filtered).filter isPostFilterWarning = postFilterWarnings c filtered
    := by
  unfold postFilterWarnings
  simp only []
  split
  · rfl
  · split
    · rfl
    · split
      · rfl
      · rfl

/-! ## Claim C8 -/

/-- C8: with a named-profile context the pipeline emits at most one
post-filter warning, chosen by priority: the zero-tools warning when the
final list is empty, otherwise the only-session_status warning when the
final list has length one and contains session_status, otherwise the
headline-loss warning when the headline tools are non-empty and none of
their normalized names survive, otherwise none. -/
theorem post_pipeline_diagnostics (tools : List AnyAgentTool)
    (steps : List ToolPolicyPipelineStep) (c : NamedProfileContext) :
    ((applyToolPolicyPipeline tools steps (some c)).2.filter isPostFilterWarning =
      (if (applyToolPolicyPipeline tools steps (some c)).1.length = 0 then
         [PipelineWarning.zeroTools c.profileName]
       else if (applyToolPolicyPipeline tools steps (some c)).1.length = 1 ∧
           ((applyToolPolicyPipeline tools steps (some c)).1.map
             (fun tool => normalizeToolName tool.name)).contains "session_status" then
         [PipelineWarning.onlySessionStatus c.profileName]
       else if 0 < c.headlineTools.length ∧
           c.headlineTools.all (fun t =>
             !(((applyToolPolicyPipeline tools steps (some c)).1.map
               (fun tool => normalizeToolName tool.name)).contains (normalizeToolName t))) then
         [PipelineWarning.headlineLoss c.profileName c.headlineTools
           ((applyToolPolicyPipeline tools steps (some c)).1.map (fun tool => tool.name))]
       else [])) ∧
    ((applyToolPolicyPipeline tools steps (some c)).2.filter isPostFilterWarning).length ≤ 1
    := by
  set F := runPipelineSteps (buildPluginToolGroups tools) (coreToolNamesOf tools) tools steps
    with hF
  have h2 : F.2.filter isPostFilterWarning = [] := by
    rw [hF]
    exact runPipelineSteps_post_filter (buildPluginToolGroups tools) (coreToolNamesOf tools)
      tools steps
  have hmain : (applyToolPolicyPipeline tools steps (some c)).2.filter isPostFilterWarning =
      postFilterWarnings c F.1 :=
    calc (applyToolPolicyPipeline tools steps (some c)).2.filter isPostFilterWarning
        = (F.2 ++ postFilterWarnings c F.1).filter isPostFilterWarning := rfl
      _ = F.2.filter isPostFilterWarning ++
            (postFilterWarnings c F.1).filter isPostFilterWarning := List.filter_append _ _
      _ = postFilterWarnings c F.1 := by
            rw [h2, postFilterWarnings_all_post, List.nil_append]
  constructor
  · rw [hmain]
    rfl
  · rw [hmain]
    unfold postFilterWarnings
    simp only []
    split
    · simp
    · split
      · simp
      · split
        · simp
        · simp

/-- Witness for C2: a surviving tool of a concrete pipeline run is a
member of the input list. -/
theorem monotone_narrowing_witness :
    ({ name := "read" } : AnyAgentTool) ∈
      ([{ name := "read" }, { name := "exec" }] : List AnyAgentTool) :=
  (monotone_narrowing [{ name := "read" }, { name := "exec" }]
    [{ policy := some { allow := some ["read"] }, label := "tools.allow",
       stripPluginOnlyAllowlist := true }] none).2.2.1 { name := "read" } (by decide)
